import Mathlib

/-!
Verification development for the seller-inventory scraper repository
(src/amazon_scraper.py and src/enhanced_amazon_scraper.py).

The Python code is shallowly embedded:
* external-library observations (HTTP responses, BeautifulSoup selector
  results, json.loads outcomes) become oracle parameters or record fields;
* the pure data flow (identifier validation, title/price fallback chains,
  first-seen deduplication, page/variant loops, cache freshness checks)
  is translated function-by-function;
* machine time is a `Nat` of epoch seconds, HTML documents are records of
  the selector results the code reads from them.

Namespace `Enhanced` embeds enhanced_amazon_scraper.py and namespace
`AmazonMod` embeds amazon_scraper.py.
-/

namespace SellerScan

/-! ### Python-string helpers (structural-recursion versions of strip/in/upper) -/

/-- Characters Python's `str.strip()` removes. -/
def isPySpace (c : Char) : Bool :=
  c = ' ' || c = '\t' || c = '\n' || c = '\x0d' || c = '\x0b' || c = '\x0c'

/-- Python `s.strip()`. -/
def pyStrip (s : String) : String :=
  String.mk (((s.data.dropWhile isPySpace).reverse.dropWhile isPySpace).reverse)

def charsPrefixOf : List Char → List Char → Bool
  | [], _ => true
  | _ :: _, [] => false
  | a :: as, b :: bs => a = b && charsPrefixOf as bs

def charsContain (needle : List Char) : List Char → Bool
  | [] => charsPrefixOf needle []
  | c :: rest => charsPrefixOf needle (c :: rest) || charsContain needle rest

/-- Python `pat in s` (substring test). -/
def pyContains (s pat : String) : Bool := charsContain pat.data s.data

def pyUpperChar (c : Char) : Char :=
  if 'a' ≤ c ∧ c ≤ 'z' then Char.ofNat (c.toNat - 32) else c

/-- Python `s.upper()` (ASCII fragment, enough for marketplace tags). -/
def pyUpper (s : String) : String := String.mk (s.data.map pyUpperChar)

/-! ### First-seen insertion — the deduplication primitive shared by both modules.

`insertNew key acc p` is `if p[key] not in acc: acc.append(p)` over an
insertion-ordered collection keyed by `key` (a Python dict keyed by ASIN in
the enhanced module, an explicit `any(...)` scan in amazon_scraper). -/

def insertNew {α : Type} (key : α → String) (acc : List α) (p : α) : List α :=
  if acc.any fun q => key q == key p then acc else acc ++ [p]

/-- One page's worth of `insertNew` calls (the `for product in page_products`
merge loops). -/
def addNew {α : Type} (key : α → String) (acc : List α) (ps : List α) : List α :=
  ps.foldl (insertNew key) acc

/-- First pick of `firstNonEmptyList`: both modules loop over a list of
selector strategies and commit to the first one that matched anything. -/
def firstNonEmptyList {α : Type} : List (List α) → List α
  | [] => []
  | l :: rest => if l.isEmpty then firstNonEmptyList rest else l

/-- Ordered sub-selector fallback used for titles and prices: take the first
candidate whose text is present and strips to something non-empty
(`if elem and elem.text.strip(): take elem.text.strip()`). -/
def firstNonEmptyTrim : List (Option String) → Option String
  | [] => none
  | none :: rest => firstNonEmptyTrim rest
  | some t :: rest => if pyStrip t = "" then firstNonEmptyTrim rest else some (pyStrip t)

namespace Enhanced

/-! ## enhanced_amazon_scraper.py -/

/-- The product dict built by `extract_products_from_search_page`
(lines 242-250). -/
structure EProduct where
  asin : String
  title : String
  price : Option String
  link : String
  sellerId : String
  marketplace : String
  source : String
  deriving Repr, DecidableEq

/-- One matched result element, as the oracle of everything the extractor
reads from it with BeautifulSoup / json:
* `sponsoredLabel`: text of `span.s-label-popover-default` when present;
* `dataAsin`: the `data-asin` attribute (`none` = absent);
* `propsAsin`: the ASIN recovered by the `data-component-props` fallback
  (attribute present, contains `asin`, json.loads succeeds and carries an
  `asin` field) — `none` when that chain yields nothing;
* `titleText`: text of the first element matched by the comma-joined title
  selector, `none` when no title element matches;
* `priceText`: likewise for the price selector. -/
structure SearchElement where
  sponsoredLabel : Option String
  dataAsin : Option String
  propsAsin : Option String
  titleText : Option String
  priceText : Option String
  deriving Repr, DecidableEq

/-- Per-element body of `extract_products_from_search_page` (lines 209-252):
skip sponsored entries, resolve the ASIN from `data-asin` falling back to
component props (empty string is falsy), skip when no ASIN, and otherwise
emit the record — with the placeholder `"Unknown Title"` when no title
element matched, and the stripped price text when one did. -/
def extractProduct (sellerId : String) (e : SearchElement) : Option EProduct :=
  if (match e.sponsoredLabel with
      | some s => pyContains s "Sponsored"
      | none => false) then
    none
  else
    match (match e.dataAsin with
           | some a => if a = "" then e.propsAsin else some a
           | none => e.propsAsin) with
    | none => none
    | some a =>
      if a = "" then none
      else
        some { asin := a
               title := match e.titleText with
                        | some t => pyStrip t
                        | none => "Unknown Title"
               price := match e.priceText with
                        | some t => some (pyStrip t)
                        | none => none
               link := "https://www.amazon.co.uk/dp/" ++ a
               sellerId := sellerId
               marketplace := "UK"
               source := "enhanced_amazon" }

/-- One parsed search page: the element lists each of the five grid
selectors would return, in the order the source tries them. -/
structure SearchPage where
  gridResults : List (List SearchElement)
  deriving Repr, DecidableEq

/-- `extract_products_from_search_page`: commit to the first grid selector
with matches and extract each element of it. -/
def extractProductsFromSearchPage (doc : SearchPage) (sellerId : String) : List EProduct :=
  (firstNonEmptyList doc.gridResults).filterMap (extractProduct sellerId)

/-- Fields of the cached JSON document the module reads/writes
(`timestamp` in epoch seconds standing in for the ISO-8601 string). -/
structure ECacheData where
  timestamp : Option Nat
  sellerId : Option String
  sellerName : Option String
  products : Option (List EProduct)
  marketplace : Option String
  deriving Repr, DecidableEq

/-- State of the on-disk cache entry for one `(seller_id, marketplace)` key:
missing file, file that `json.load`/timestamp parsing raises on, or a
parsed document. -/
inductive ECacheFile where
  | absent
  | unparseable
  | parsed (cd : ECacheData)
  deriving Repr, DecidableEq

/-- Epoch seconds of `2000-01-01T00:00:00`, the default used when the
`timestamp` field is missing. -/
def defaultStamp : Nat := 946684800

def maxAgeSecs (maxAgeHours : Nat) : Nat := maxAgeHours * 3600

/-- `get_from_cache` (lines 84-106): `none` for a missing file, `none` when
reading/parsing raises (the error is swallowed), `none` when
`now - cache_time > max_age`, otherwise the parsed data unchanged. -/
def getFromCache (file : ECacheFile) (now : Nat) (maxAgeHours : Nat) : Option ECacheData :=
  match file with
  | .absent => none
  | .unparseable => none
  | .parsed cd =>
    if maxAgeSecs maxAgeHours < now - cd.timestamp.getD defaultStamp then none
    else some cd

/-- `SELLER_URL_PATTERNS` (lines 41-64) as template functions
`marketplace → seller_id → page → url`. -/
def SELLER_URL_PATTERNS : List (String → String → Nat → String) :=
  [ fun mkt sid page => "https://www.amazon." ++ mkt ++ "/s?i=merchant-items&me=" ++ sid ++ "&page=" ++ toString page
  , fun mkt sid page => "https://www.amazon." ++ mkt ++ "/s?me=" ++ sid ++ "&marketplaceID=A1F83G8C2ARO7P&page=" ++ toString page
  , fun mkt sid page => "https://www.amazon." ++ mkt ++ "/s?merchant=" ++ sid ++ "&page=" ++ toString page
  , fun mkt sid page => "https://www.amazon." ++ mkt ++ "/shops/" ++ sid ++ "/page/" ++ toString page
  , fun mkt sid page => "https://www.amazon." ++ mkt ++ "/stores/" ++ sid ++ "/page/" ++ toString page
  , fun mkt sid page => "https://www.amazon." ++ mkt ++ "/s?i=merchant-items&me=" ++ sid ++ "&rh=p_6%3A" ++ sid ++ "&page=" ++ toString page
  , fun mkt sid page => "https://www.amazon." ++ mkt ++ "/s?i=merchant-items&me=" ++ sid ++ "&rh=n%3A65801031&page=" ++ toString page
  , fun mkt sid page => "https://www.amazon." ++ mkt ++ "/s?i=merchant-items&me=" ++ sid ++ "&rh=n%3A66280031&page=" ++ toString page
  , fun mkt sid page => "https://www.amazon." ++ mkt ++ "/s?i=merchant-items&me=" ++ sid ++ "&rh=n%3A117332031&page=" ++ toString page
  , fun mkt sid page => "https://www.amazon." ++ mkt ++ "/s?i=merchant-items&me=" ++ sid ++ "&rh=n%3A560798&page=" ++ toString page
  , fun mkt sid page => "https://www.amazon." ++ mkt ++ "/s?i=merchant-items&me=" ++ sid ++ "&s=price-desc-rank&page=" ++ toString page
  , fun mkt sid page => "https://www.amazon." ++ mkt ++ "/s?i=merchant-items&me=" ++ sid ++ "&s=price-asc-rank&page=" ++ toString page
  , fun mkt sid page => "https://www.amazon." ++ mkt ++ "/s?i=merchant-items&me=" ++ sid ++ "&s=date-desc-rank&page=" ++ toString page
  , fun mkt sid page => "https://www.amazon." ++ mkt ++ "/s?i=merchant-items&me=" ++ sid ++ "&s=review-rank&page=" ++ toString page
  , fun mkt sid page => "https://www.amazon." ++ mkt ++ "/s?i=merchant-items&me=" ++ sid ++ "&s=relevancerank&page=" ++ toString page ]

/-- The variant indices `scan_seller_inventory` enumerates. -/
def patternIdxs : List Nat := List.range SELLER_URL_PATTERNS.length

/-- `for page in range(1, 8)`. -/
def initialPages : List Nat := [1, 2, 3, 4, 5, 6, 7]

/-- `for page in range(8, 16)`. -/
def extraPages : List Nat := [8, 9, 10, 11, 12, 13, 14, 15]

/-- One `make_request` invocation, identified by what the scan requested:
the seller-name storefront page or (pattern index, page number). -/
inductive FetchEvent where
  | nameFetch
  | pageFetch (patternIdx page : Nat)
  deriving Repr, DecidableEq

/-- Result of walking one variant's page range: the updated dedup
accumulator, the variant's `pattern_products_count` contribution, and the
fetch attempts made. -/
structure PageWalk where
  acc : List EProduct
  cnt : Nat
  log : List FetchEvent
  deriving Repr, DecidableEq

/-- The page loop of `scan_seller_inventory` (lines 285-312 and, without
the counter, 321-341): fetch the page (one attempt logged); stop on no
response or an extraction with no products; otherwise insert the page's
products first-seen-wins and continue with the next page.
The fetch oracle maps (pattern index, page) to the parsed page that
`make_request` + BeautifulSoup produce, `none` when `make_request`
exhausts its retries. -/
def walkPages (fetch : Nat → Nat → Option SearchPage) (sellerId : String) (i : Nat) :
    List Nat → List EProduct → PageWalk
  | [], acc => ⟨acc, 0, []⟩
  | pg :: rest, acc =>
    match fetch i pg with
    | none => ⟨acc, 0, [.pageFetch i pg]⟩
    | some doc =>
      let pps := extractProductsFromSearchPage doc sellerId
      if pps.isEmpty then ⟨acc, 0, [.pageFetch i pg]⟩
      else
        let w := walkPages fetch sellerId i rest (addNew EProduct.asin acc pps)
        ⟨w.acc, pps.length + w.cnt, .pageFetch i pg :: w.log⟩

/-- One iteration of the `for pattern_idx, url_pattern in enumerate(...)`
loop: walk pages 1-7, and when `pattern_products_count >= 100` keep walking
pages 8-15 with the same fetch/extract/insert logic (the extra loop does
not update the counter). -/
def scanPattern (fetch : Nat → Nat → Option SearchPage) (sellerId : String)
    (acc : List EProduct) (i : Nat) : List EProduct × List FetchEvent :=
  let w := walkPages fetch sellerId i initialPages acc
  if 100 ≤ w.cnt then
    let w2 := walkPages fetch sellerId i extraPages w.acc
    (w2.acc, w.log ++ w2.log)
  else (w.acc, w.log)

/-- The full variant loop threading the cross-variant dedup map. -/
def scanPatterns (fetch : Nat → Nat → Option SearchPage) (sellerId : String) :
    List Nat → List EProduct → List EProduct × List FetchEvent
  | [], acc => (acc, [])
  | i :: rest, acc =>
    let r1 := scanPattern fetch sellerId acc i
    let r2 := scanPatterns fetch sellerId rest r1.1
    (r2.1, r1.2 ++ r2.2)

/-- What `scan_seller_inventory` produces: the returned product list and
seller name, the fetch attempts made, and the document handed to
`save_to_cache` (`none` when the cache-hit early return fires). -/
structure ScanResult where
  products : List EProduct
  sellerName : String
  log : List FetchEvent
  saved : Option ECacheData
  deriving Repr, DecidableEq

/-- `get_seller_name(...) or "Unknown Seller"` (Python `or`: an empty
string also falls back). -/
def resolveName (nameResult : Option String) : String :=
  match nameResult with
  | some s => if s = "" then "Unknown Seller" else s
  | none => "Unknown Seller"

/-- The cache-miss body of `scan_seller_inventory` (lines 275-356): resolve
the seller name once, run every pattern, convert the dedup map to a list,
and save the result (timestamped now) to the cache. -/
def scanFresh (fetch : Nat → Nat → Option SearchPage) (nameResult : Option String)
    (sellerId marketplace : String) (now : Nat) : ScanResult :=
  let sellerName := resolveName nameResult
  let r := scanPatterns fetch sellerId patternIdxs []
  { products := r.1
    sellerName := sellerName
    log := .nameFetch :: r.2
    saved := some { timestamp := some now, sellerId := some sellerId,
                    sellerName := some sellerName, products := some r.1,
                    marketplace := some marketplace } }

/-- `scan_seller_inventory` (lines 262-356): unless `force_refresh`, consult
the cache (12-hour window) and return the cached products and seller name
when the entry is served and has a `products` field; otherwise scan. -/
def scanSellerInventory (fetch : Nat → Nat → Option SearchPage) (nameResult : Option String)
    (file : ECacheFile) (now : Nat) (sellerId marketplace : String)
    (forceRefresh : Bool) : ScanResult :=
  match (if forceRefresh then none else getFromCache file now 12) with
  | some cd =>
    match cd.products with
    | some ps => { products := ps, sellerName := cd.sellerName.getD "Unknown",
                   log := [], saved := none }
    | none => scanFresh fetch nameResult sellerId marketplace now
  | none => scanFresh fetch nameResult sellerId marketplace now

/-- The `try/except` wrapper `get_seller_products` (lines 358-369): a scan
outcome that raised with any message becomes `[]`; a returned
`(products, seller_name)` pair passes its products through. -/
def getSellerProducts (scanOutcome : Except String (List EProduct × String)) : List EProduct :=
  match scanOutcome with
  | .ok r => r.1
  | .error _ => []

/-! ### Acc-independent mirrors of the walker, used to state its properties:
the stream of extracted page-product lists in encounter order, the
per-variant counter, and the fetch log. The walker's control flow never
consults the dedup accumulator, so these are functions of the fetch oracle
alone; `walkPages_eq` below proves the correspondence. -/

def pageStream (fetch : Nat → Nat → Option SearchPage) (sellerId : String) (i : Nat) :
    List Nat → List (List EProduct)
  | [] => []
  | pg :: rest =>
    match fetch i pg with
    | none => []
    | some doc =>
      let pps := extractProductsFromSearchPage doc sellerId
      if pps.isEmpty then [] else pps :: pageStream fetch sellerId i rest

def pagesLog (fetch : Nat → Nat → Option SearchPage) (sellerId : String) (i : Nat) :
    List Nat → List FetchEvent
  | [] => []
  | pg :: rest =>
    match fetch i pg with
    | none => [.pageFetch i pg]
    | some doc =>
      if (extractProductsFromSearchPage doc sellerId).isEmpty then [.pageFetch i pg]
      else .pageFetch i pg :: pagesLog fetch sellerId i rest

/-- The value `pattern_products_count` reaches after a variant's initial
pages: the summed sizes of the extracted page-product lists, duplicates
included. -/
def pagesCnt (fetch : Nat → Nat → Option SearchPage) (sellerId : String) (i : Nat)
    (pages : List Nat) : Nat :=
  ((pageStream fetch sellerId i pages).map List.length).sum

def patternStream (fetch : Nat → Nat → Option SearchPage) (sellerId : String) (i : Nat) :
    List (List EProduct) :=
  pageStream fetch sellerId i initialPages ++
    (if 100 ≤ pagesCnt fetch sellerId i initialPages then
      pageStream fetch sellerId i extraPages
     else [])

def patternLog (fetch : Nat → Nat → Option SearchPage) (sellerId : String) (i : Nat) :
    List FetchEvent :=
  pagesLog fetch sellerId i initialPages ++
    (if 100 ≤ pagesCnt fetch sellerId i initialPages then
      pagesLog fetch sellerId i extraPages
     else [])

def streamAll (fetch : Nat → Nat → Option SearchPage) (sellerId : String) :
    List Nat → List (List EProduct)
  | [] => []
  | i :: rest => patternStream fetch sellerId i ++ streamAll fetch sellerId rest

def logAll (fetch : Nat → Nat → Option SearchPage) (sellerId : String) :
    List Nat → List FetchEvent
  | [] => []
  | i :: rest => patternLog fetch sellerId i ++ logAll fetch sellerId rest

/-- Every product record the scan encounters, in encounter order (pages
inside variants, variants in generator order). -/
def scanFlatStream (fetch : Nat → Nat → Option SearchPage) (sellerId : String) :
    List EProduct :=
  (streamAll fetch sellerId patternIdxs).flatten

end Enhanced

namespace AmazonMod

/-! ## amazon_scraper.py -/

/-- The product dict built in `AmazonSellerScraper.get_seller_products`
(lines 407-419). -/
structure AProduct where
  asin : String
  title : String
  link : String
  marketplace : String
  sellerId : String
  sellerName : String
  priceText : Option String
  deriving Repr, DecidableEq

/-- One matched product element: the `data-asin` attribute (`get` with
default `''` makes absence and `''` coincide) and, for each of the four
title selectors and three price selectors in source order, the text of the
sub-element it matches (`none` = no match). -/
structure BElement where
  dataAsin : Option String
  titleCands : List (Option String)
  priceCands : List (Option String)
  deriving Repr, DecidableEq

def baseUrl (marketplace : String) : String := "https://www.amazon." ++ marketplace

/-- The per-element body of the product loop (lines 379-419): drop elements
whose ASIN is missing/empty or not exactly 10 characters long; resolve the
title through the ordered sub-selectors taking the first non-empty strip
and drop the element when none matches; the price is optional. -/
def processElement (marketplace sellerId sellerName : String) (e : BElement) :
    Option AProduct :=
  let asin := e.dataAsin.getD ""
  if asin = "" ∨ asin.length ≠ 10 then none
  else
    match firstNonEmptyTrim e.titleCands with
    | none => none
    | some title =>
      some { asin := asin
             title := title
             link := baseUrl marketplace ++ "/dp/" ++ asin
             marketplace := "Amazon " ++ pyUpper marketplace
             sellerId := sellerId
             sellerName := sellerName
             priceText := firstNonEmptyTrim e.priceCands }

/-- Folding the element loop over one page, threading `page_products` and
its `any(p['asin'] == asin ...)` duplicate check (line 422). -/
def processElements (marketplace sellerId sellerName : String)
    (els : List BElement) (pageProducts : List AProduct) : List AProduct :=
  els.foldl
    (fun acc e =>
      match processElement marketplace sellerId sellerName e with
      | none => acc
      | some p => SellerScan.insertNew AProduct.asin acc p)
    pageProducts

/-- One fetched page, as the oracle of what the page loop reads from the
response: whether the invalid-storefront marker text occurs, the element
lists of the eleven product selectors in order, and the pagination signal
(`none` = no next link; `some d` = next link present with `d` recording
the `a-disabled` parent class). -/
structure APage where
  invalidMarker : Bool
  selectorResults : List (List BElement)
  nextButton : Option Bool
  deriving Repr, DecidableEq

inductive AFetchEvent where
  | nameFetch
  | pageFetch (urlIdx page : Nat)
  deriving Repr, DecidableEq

/-- `while more_pages and page <= 100` (lines 336-452): fetch the page; stop
on no response, on the invalid-page marker, or when no selector finds
products; otherwise process the first matching selector's elements into
`page_products` and continue only when an enabled next-page link exists. -/
def walkFormat (fetch : Nat → Nat → Option APage) (marketplace sellerId sellerName : String)
    (u : Nat) : List Nat → List AProduct → List AProduct × List AFetchEvent
  | [], acc => (acc, [])
  | pg :: rest, acc =>
    match fetch u pg with
    | none => (acc, [.pageFetch u pg])
    | some page =>
      if page.invalidMarker then (acc, [.pageFetch u pg])
      else
        let els := SellerScan.firstNonEmptyList page.selectorResults
        if els.isEmpty then (acc, [.pageFetch u pg])
        else
          let acc2 := processElements marketplace sellerId sellerName els acc
          match page.nextButton with
          | none => (acc2, [.pageFetch u pg])
          | some disabled =>
            if disabled then (acc2, [.pageFetch u pg])
            else
              let r := walkFormat fetch marketplace sellerId sellerName u rest acc2
              (r.1, .pageFetch u pg :: r.2)

/-- The page numbers the `while` loop can reach: 1 up to 100. -/
def pages100 : List Nat := List.range' 1 100

/-- `for product in page_products: if not any(...): products.append(product)`
(lines 454-457). -/
def mergeProducts (products pageProducts : List AProduct) : List AProduct :=
  SellerScan.addNew AProduct.asin products pageProducts

/-- The `for base_url in urls_to_try` loop: each URL format walks its pages
into a fresh `page_products`, then merges first-seen-wins into `products`. -/
def walkFormats (fetch : Nat → Nat → Option APage) (marketplace sellerId sellerName : String) :
    List Nat → List AProduct → List AProduct × List AFetchEvent
  | [], products => (products, [])
  | u :: rest, products =>
    let r1 := walkFormat fetch marketplace sellerId sellerName u pages100 []
    let r2 := walkFormats fetch marketplace sellerId sellerName rest
                (mergeProducts products r1.1)
    (r2.1, r1.2 ++ r2.2)

/-- Fields of the cached JSON document (`timestamp` epoch seconds;
`hasOther` records whether the dict carries any further keys, which is what
Python truthiness of the dict can additionally depend on). -/
structure ACacheData where
  timestamp : Option Nat
  products : Option (List AProduct)
  hasOther : Bool
  deriving Repr, DecidableEq

inductive ACacheFile where
  | absent
  | unparseable
  | parsed (cd : ACacheData)
  deriving Repr, DecidableEq

/-- Python truthiness of the parsed cache dict. -/
def truthy (cd : ACacheData) : Bool :=
  cd.timestamp.isSome || cd.products.isSome || cd.hasOther

/-- `_get_from_cache` (lines 136-152): missing file or a raising read is a
miss; the parsed data is returned only while
`time.time() - cache_time < 86400` (missing `timestamp` defaults to 0). -/
def aGetFromCache (file : ACacheFile) (now : Nat) : Option ACacheData :=
  match file with
  | .absent => none
  | .unparseable => none
  | .parsed cd =>
    if now - cd.timestamp.getD 0 < 86400 then some cd else none

/-- The fourteen URL format indices of `urls_to_try`. -/
def urlFormatCount : Nat := 14

structure AScanResult where
  products : List AProduct
  log : List AFetchEvent
  saved : Option ACacheData
  deriving Repr, DecidableEq

/-- The cache-miss body of `AmazonSellerScraper.get_seller_products`
(lines 323-484): resolve the seller name once, walk every URL format, and
save to cache only when products were found. -/
def aScanFresh (fetch : Nat → Nat → Option APage) (nameResult : Option String)
    (sellerId marketplace : String) (now : Nat) : AScanResult :=
  let sellerName := Enhanced.resolveName nameResult
  let r := walkFormats fetch marketplace sellerId sellerName (List.range urlFormatCount) []
  { products := r.1
    log := .nameFetch :: r.2
    saved := if r.1.isEmpty then none
             else some { timestamp := some now, products := some r.1, hasOther := true } }

/-- `AmazonSellerScraper.get_seller_products` (lines 276-484): unless
`force_refresh`, a truthy fresh cache entry short-circuits with
`cache_data.get('products', [])`; otherwise scrape. -/
def aGetSellerProducts (fetch : Nat → Nat → Option APage) (nameResult : Option String)
    (file : ACacheFile) (now : Nat) (sellerId marketplace : String)
    (forceRefresh : Bool) : AScanResult :=
  match (if forceRefresh then none else aGetFromCache file now) with
  | some cd =>
    if truthy cd then
      { products := cd.products.getD [], log := [], saved := none }
    else aScanFresh fetch nameResult sellerId marketplace now
  | none => aScanFresh fetch nameResult sellerId marketplace now

/-- The module-level wrapper `get_seller_products` (lines 487-495): any
exception from constructing or running the scraper becomes `[]`. -/
def getSellerProductsTop (outcome : Except String (List AProduct)) : List AProduct :=
  match outcome with
  | .ok ps => ps
  | .error _ => []

/-- `urls_to_try` (lines 301-321). The ninth entry embeds
`int(time.time())` as a `qid` parameter, so the list is a function of the
construction time as well as of seller and marketplace. -/
def urlsToTry (sellerId marketplace : String) (now : Nat) : List String :=
  [ baseUrl marketplace ++ "/s?i=merchant-items&me=" ++ sellerId
  , baseUrl marketplace ++ "/s?me=" ++ sellerId ++ "&marketplaceID=A1F83G8C2ARO7P"
  , baseUrl marketplace ++ "/s?k=*&me=" ++ sellerId
  , baseUrl marketplace ++ "/s?rh=n%3A%2Cp_6%3A" ++ sellerId
  , baseUrl marketplace ++ "/s?merchant=" ++ sellerId
  , baseUrl marketplace ++ "/s?rh=p_4%3A" ++ sellerId
  , baseUrl marketplace ++ "/shops/" ++ sellerId
  , baseUrl marketplace ++ "/sp?seller=" ++ sellerId
  , baseUrl marketplace ++ "/s?i=merchant-items&me=" ++ sellerId ++ "&qid=" ++ toString now
  , baseUrl marketplace ++ "/s?i=merchant-items&me=" ++ sellerId ++ "&rh=n%3A117332031"
  , baseUrl marketplace ++ "/s?i=merchant-items&me=" ++ sellerId ++ "&rh=n%3A560798"
  , baseUrl marketplace ++ "/s?i=merchant-items&me=" ++ sellerId ++ "&rh=n%3A1025612"
  , baseUrl marketplace ++ "/s?i=merchant-items&me=" ++ sellerId ++ "&rh=n%3A560800"
  , baseUrl marketplace ++ "/s?i=merchant-items&me=" ++ sellerId ++ "&rh=n%3A11052681" ]

/-- The ninth (index 8) entry of `urls_to_try`, the only time-dependent one. -/
def qidUrl (sellerId marketplace : String) (now : Nat) : String :=
  baseUrl marketplace ++ "/s?i=merchant-items&me=" ++ sellerId ++ "&qid=" ++ toString now

end AmazonMod

/-! ## Properties of first-seen insertion -/

section Dedup

variable {α : Type} (key : α → String)

theorem mem_insertNew_of_mem {acc : List α} {q : α} (p : α) (h : q ∈ acc) :
    q ∈ insertNew key acc p := by
  unfold insertNew
  split
  · exact h
  · exact List.mem_append_left _ h

theorem mem_of_mem_insertNew {acc : List α} {p q : α}
    (h : q ∈ insertNew key acc p) : q ∈ acc ∨ q = p := by
  unfold insertNew at h
  split at h
  · exact .inl h
  · rcases List.mem_append.1 h with h1 | h1
    · exact .inl h1
    · exact .inr (List.mem_singleton.1 h1)

theorem mem_insertNew_self {acc : List α} {p : α}
    (h : ∀ q ∈ acc, key q ≠ key p) : p ∈ insertNew key acc p := by
  unfold insertNew
  rw [if_neg]
  · exact List.mem_append_right _ (List.mem_singleton.2 rfl)
  · simp only [List.any_eq_true, beq_iff_eq, not_exists]
    intro q hq
    exact h q hq.1 hq.2

theorem pairwise_insertNew {acc : List α} {p : α}
    (h : acc.Pairwise fun a b => key a ≠ key b) :
    (insertNew key acc p).Pairwise fun a b => key a ≠ key b := by
  unfold insertNew
  split
  · exact h
  · rename_i hany
    rw [List.pairwise_append]
    refine ⟨h, List.pairwise_singleton _ _, ?_⟩
    intro a ha b hb hk
    rw [List.mem_singleton] at hb
    subst hb
    exact hany (List.any_eq_true.2 ⟨a, ha, beq_iff_eq.2 hk⟩)

theorem mem_foldl_insertNew_of_mem (l : List α) :
    ∀ acc : List α, ∀ q ∈ acc, q ∈ l.foldl (insertNew key) acc := by
  induction l with
  | nil => intro acc q hq; exact hq
  | cons p rest ih =>
    intro acc q hq
    exact ih _ _ (mem_insertNew_of_mem key p hq)

theorem mem_of_mem_foldl_insertNew (l : List α) :
    ∀ acc : List α, ∀ q ∈ l.foldl (insertNew key) acc, q ∈ acc ∨ q ∈ l := by
  induction l with
  | nil => intro acc q hq; exact .inl hq
  | cons p rest ih =>
    intro acc q hq
    rcases ih _ _ hq with h1 | h1
    · rcases mem_of_mem_insertNew key h1 with h2 | h2
      · exact .inl h2
      · exact .inr (h2 ▸ List.mem_cons_self p rest)
    · exact .inr (List.mem_cons_of_mem _ h1)

theorem pairwise_foldl_insertNew (l : List α) :
    ∀ acc : List α, acc.Pairwise (fun a b => key a ≠ key b) →
      (l.foldl (insertNew key) acc).Pairwise fun a b => key a ≠ key b := by
  induction l with
  | nil => intro acc h; exact h
  | cons p rest ih =>
    intro acc h
    exact ih _ (pairwise_insertNew key h)

theorem firstSeen_mem_foldl_insertNew (p : α) (l₂ : List α) : ∀ (l₁ acc : List α),
    (∀ q ∈ acc, key q ≠ key p) → (∀ q ∈ l₁, key q ≠ key p) →
      p ∈ (l₁ ++ p :: l₂).foldl (insertNew key) acc := by
  intro l₁
  induction l₁ with
  | nil =>
    intro acc hacc _
    simp only [List.nil_append, List.foldl_cons]
    exact mem_foldl_insertNew_of_mem key l₂ _ _ (mem_insertNew_self key hacc)
  | cons a l₁ ih =>
    intro acc hacc hl
    simp only [List.cons_append, List.foldl_cons]
    refine ih _ ?_ ?_
    · intro q hq
      rcases mem_of_mem_insertNew key hq with h1 | h1
      · exact hacc q h1
      · subst h1
        exact hl q (List.mem_cons_self _ _)
    · intro q hq
      exact hl q (List.mem_cons_of_mem _ hq)

theorem foldl_addNew_eq_flatten (pss : List (List α)) :
    ∀ acc : List α, pss.foldl (addNew key) acc = pss.flatten.foldl (insertNew key) acc := by
  induction pss with
  | nil => intro acc; rfl
  | cons ps rest ih =>
    intro acc
    simp only [List.foldl_cons, List.flatten_cons, List.foldl_append, addNew, ih]

/-- A key represented in the accumulator or occurring in the input stays
represented in the fold: `insertNew` never drops a key. -/
theorem exists_key_mem_foldl_insertNew (l : List α) :
    ∀ (acc : List α) (k : String),
      ((∃ r ∈ acc, key r = k) ∨ ∃ q ∈ l, key q = k) →
      ∃ r ∈ l.foldl (insertNew key) acc, key r = k := by
  induction l with
  | nil =>
    intro acc k h
    rcases h with ⟨r, hr, hk⟩ | ⟨q, hq, _⟩
    · exact ⟨r, hr, hk⟩
    · simp at hq
  | cons p rest ih =>
    intro acc k h
    rcases h with ⟨r, hr, hk⟩ | ⟨q, hq, hk⟩
    · exact ih _ _ (.inl ⟨r, mem_insertNew_of_mem key p hr, hk⟩)
    · rcases List.mem_cons.1 hq with rfl | hq2
      · by_cases hany : (acc.any fun r => key r == key q) = true
        · obtain ⟨r, hr, hrk⟩ := List.any_eq_true.1 hany
          exact ih _ _ (.inl ⟨r, mem_insertNew_of_mem key q hr, (beq_iff_eq.1 hrk).trans hk⟩)
        · have hq3 : q ∈ insertNew key acc q := by
            unfold insertNew
            rw [if_neg hany]
            exact List.mem_append_right _ (List.mem_singleton.2 rfl)
          exact ih _ _ (.inl ⟨q, hq3, hk⟩)
      · exact ih _ _ (.inr ⟨q, hq2, hk⟩)

theorem insertNew_eq_of_key_mem {acc : List α} {p : α}
    (h : ∃ r ∈ acc, key r = key p) : insertNew key acc p = acc := by
  obtain ⟨r, hr, hk⟩ := h
  have hany : (acc.any fun q => key q == key p) = true :=
    List.any_eq_true.2 ⟨r, hr, beq_iff_eq.2 hk⟩
  unfold insertNew
  rw [if_pos hany]

theorem insertNew_eq_append {acc : List α} {p : α}
    (h : ¬ (acc.any fun q => key q == key p) = true) :
    insertNew key acc p = acc ++ [p] := by
  unfold insertNew
  rw [if_neg h]

/-- Merging a first-seen-deduplicated list into an accumulator is the same
as merging the raw list: deduplicating locally first (one URL format's
`page_products`) and then inserting first-seen-wins into the global
accumulator (`products`) equals inserting the raw encounter stream. -/
theorem foldl_insertNew_foldl (l : List α) :
    ∀ acc0 acc : List α,
      (l.foldl (insertNew key) acc0).foldl (insertNew key) acc =
        l.foldl (insertNew key) (acc0.foldl (insertNew key) acc) := by
  induction l with
  | nil => intro acc0 acc; rfl
  | cons p rest ih =>
    intro acc0 acc
    simp only [List.foldl_cons]
    by_cases hany : (acc0.any fun r => key r == key p) = true
    · obtain ⟨r, hr, hrk⟩ := List.any_eq_true.1 hany
      obtain ⟨r2, hr2, hr2k⟩ := exists_key_mem_foldl_insertNew key acc0 acc (key p)
        (.inr ⟨r, hr, beq_iff_eq.1 hrk⟩)
      rw [insertNew_eq_of_key_mem key ⟨r, hr, beq_iff_eq.1 hrk⟩, ih,
        insertNew_eq_of_key_mem key ⟨r2, hr2, hr2k⟩]
    · rw [insertNew_eq_append key hany, ih, List.foldl_append]
      rfl

end Dedup

namespace Enhanced

/-! ## Walker / stream correspondence -/

theorem walkPages_eq (fetch : Nat → Nat → Option SearchPage) (sid : String) (i : Nat) :
    ∀ (pages : List Nat) (acc : List EProduct),
      walkPages fetch sid i pages acc =
        ⟨(pageStream fetch sid i pages).foldl (addNew EProduct.asin) acc,
         pagesCnt fetch sid i pages,
         pagesLog fetch sid i pages⟩ := by
  intro pages
  induction pages with
  | nil => intro acc; rfl
  | cons pg rest ih =>
    intro acc
    simp only [walkPages, pageStream, pagesLog, pagesCnt]
    cases hf : fetch i pg with
    | none => simp [pagesCnt, pageStream]
    | some doc =>
      by_cases h : (extractProductsFromSearchPage doc sid).isEmpty
      · simp [h, pagesCnt, pageStream]
      · simp [h, ih, pagesCnt, pageStream]

theorem scanPattern_eq (fetch : Nat → Nat → Option SearchPage) (sid : String)
    (acc : List EProduct) (i : Nat) :
    scanPattern fetch sid acc i =
      ((patternStream fetch sid i).foldl (addNew EProduct.asin) acc,
       patternLog fetch sid i) := by
  simp only [scanPattern, walkPages_eq]
  by_cases h : 100 ≤ pagesCnt fetch sid i initialPages
  · simp [patternStream, patternLog, h, List.foldl_append]
  · simp [patternStream, patternLog, h]

theorem scanPatterns_eq (fetch : Nat → Nat → Option SearchPage) (sid : String) :
    ∀ (idxs : List Nat) (acc : List EProduct),
      scanPatterns fetch sid idxs acc =
        ((streamAll fetch sid idxs).foldl (addNew EProduct.asin) acc,
         logAll fetch sid idxs) := by
  intro idxs
  induction idxs with
  | nil => intro acc; rfl
  | cons i rest ih =>
    intro acc
    simp only [scanPatterns, streamAll, logAll]
    rw [scanPattern_eq]
    simp [ih, List.foldl_append]

theorem pagesLog_mem (fetch : Nat → Nat → Option SearchPage) (sid : String) (i : Nat) :
    ∀ (pages : List Nat), ∀ e ∈ pagesLog fetch sid i pages,
      ∃ pg ∈ pages, e = FetchEvent.pageFetch i pg := by
  intro pages
  induction pages with
  | nil => intro e he; simp [pagesLog] at he
  | cons pg rest ih =>
    intro e he
    simp only [pagesLog] at he
    cases hf : fetch i pg with
    | none =>
      simp only [hf] at he
      simp only [List.mem_singleton] at he
      exact ⟨pg, List.mem_cons_self _ _, he⟩
    | some doc =>
      simp only [hf] at he
      by_cases h : (extractProductsFromSearchPage doc sid).isEmpty
      · rw [if_pos h] at he
        simp only [List.mem_singleton] at he
        exact ⟨pg, List.mem_cons_self _ _, he⟩
      · rw [if_neg h] at he
        rcases List.mem_cons.1 he with h1 | h1
        · exact ⟨pg, List.mem_cons_self _ _, h1⟩
        · obtain ⟨pg2, hpg2, heq⟩ := ih e h1
          exact ⟨pg2, List.mem_cons_of_mem _ hpg2, heq⟩

theorem pagesLog_head (fetch : Nat → Nat → Option SearchPage) (sid : String) (i pg : Nat)
    (rest : List Nat) :
    FetchEvent.pageFetch i pg ∈ pagesLog fetch sid i (pg :: rest) := by
  simp only [pagesLog]
  cases fetch i pg with
  | none => simp
  | some doc =>
    by_cases h : (extractProductsFromSearchPage doc sid).isEmpty
    · simp [h]
    · simp [h]

theorem patternLog_mem (fetch : Nat → Nat → Option SearchPage) (sid : String) (i : Nat) :
    ∀ e ∈ patternLog fetch sid i, ∃ pg, e = FetchEvent.pageFetch i pg := by
  intro e he
  unfold patternLog at he
  rcases List.mem_append.1 he with h | h
  · obtain ⟨pg, _, hpg⟩ := pagesLog_mem fetch sid i initialPages e h
    exact ⟨pg, hpg⟩
  · split at h
    · obtain ⟨pg, _, hpg⟩ := pagesLog_mem fetch sid i extraPages e h
      exact ⟨pg, hpg⟩
    · simp at h

theorem mem_logAll (fetch : Nat → Nat → Option SearchPage) (sid : String) (e : FetchEvent) :
    ∀ idxs : List Nat,
      e ∈ logAll fetch sid idxs ↔ ∃ i ∈ idxs, e ∈ patternLog fetch sid i := by
  intro idxs
  induction idxs with
  | nil => simp [logAll]
  | cons i rest ih =>
    simp only [logAll, List.mem_append, ih, List.mem_cons]
    constructor
    · rintro (h | ⟨j, hj, hm⟩)
      · exact ⟨i, .inl rfl, h⟩
      · exact ⟨j, .inr hj, hm⟩
    · rintro ⟨j, hj | hj, hm⟩
      · subst hj; exact .inl hm
      · exact .inr ⟨j, hj, hm⟩

theorem pageFetch8_mem_patternLog (fetch : Nat → Nat → Option SearchPage) (sid : String)
    (i : Nat) :
    FetchEvent.pageFetch i 8 ∈ patternLog fetch sid i ↔
      100 ≤ pagesCnt fetch sid i initialPages := by
  unfold patternLog
  rw [List.mem_append]
  constructor
  · rintro (h | h)
    · obtain ⟨pg, hpg, heq⟩ := pagesLog_mem fetch sid i initialPages _ h
      obtain ⟨-, h8⟩ := FetchEvent.pageFetch.inj heq
      subst h8
      simp [initialPages] at hpg
    · split at h
      · assumption
      · simp at h
  · intro h100
    right
    rw [if_pos h100]
    have hx : extraPages = 8 :: [9, 10, 11, 12, 13, 14, 15] := rfl
    rw [hx]
    exact pagesLog_head fetch sid i 8 _

/-! ## Behaviour under an always-failing fetcher -/

theorem pageStream_none (fetch : Nat → Nat → Option SearchPage) (sid : String) (i : Nat)
    (hf : ∀ j pg, fetch j pg = none) :
    ∀ pages : List Nat, pageStream fetch sid i pages = [] := by
  intro pages
  cases pages with
  | nil => rfl
  | cons pg rest => simp [pageStream, hf]

theorem patternStream_none (fetch : Nat → Nat → Option SearchPage) (sid : String) (i : Nat)
    (hf : ∀ j pg, fetch j pg = none) :
    patternStream fetch sid i = [] := by
  unfold patternStream
  simp [pageStream_none fetch sid i hf, pagesCnt]

theorem streamAll_none (fetch : Nat → Nat → Option SearchPage) (sid : String)
    (hf : ∀ j pg, fetch j pg = none) :
    ∀ idxs : List Nat, streamAll fetch sid idxs = [] := by
  intro idxs
  induction idxs with
  | nil => rfl
  | cons i rest ih => simp [streamAll, patternStream_none fetch sid i hf, ih]

theorem patternLog_none (fetch : Nat → Nat → Option SearchPage) (sid : String) (i : Nat)
    (hf : ∀ j pg, fetch j pg = none) :
    patternLog fetch sid i = [FetchEvent.pageFetch i 1] := by
  unfold patternLog
  have h0 : pagesCnt fetch sid i initialPages = 0 := by
    simp [pagesCnt, pageStream_none fetch sid i hf]
  rw [h0]
  have h1 : initialPages = 1 :: [2, 3, 4, 5, 6, 7] := rfl
  rw [h1]
  simp [pagesLog, hf]

theorem logAll_none (fetch : Nat → Nat → Option SearchPage) (sid : String)
    (hf : ∀ j pg, fetch j pg = none) :
    ∀ idxs : List Nat, logAll fetch sid idxs = idxs.map fun i => FetchEvent.pageFetch i 1 := by
  intro idxs
  induction idxs with
  | nil => rfl
  | cons i rest ih => simp [logAll, patternLog_none fetch sid i hf, ih]

end Enhanced

namespace AmazonMod

theorem walkFormats_pairwise (fetch : Nat → Nat → Option APage) (mkt sid sname : String) :
    ∀ (idxs : List Nat) (products : List AProduct),
      products.Pairwise (fun a b => a.asin ≠ b.asin) →
      (walkFormats fetch mkt sid sname idxs products).1.Pairwise
        fun a b => a.asin ≠ b.asin := by
  intro idxs
  induction idxs with
  | nil => intro ps h; exact h
  | cons u rest ih =>
    intro ps h
    simp only [walkFormats, mergeProducts, addNew]
    exact ih _ (pairwise_foldl_insertNew AProduct.asin _ _ h)

theorem walkFormat_none (fetch : Nat → Nat → Option APage) (mkt sid sname : String)
    (hf : ∀ u pg, fetch u pg = none) (u : Nat) (acc : List AProduct) :
    walkFormat fetch mkt sid sname u pages100 acc = (acc, [AFetchEvent.pageFetch u 1]) := by
  have h : pages100 = 1 :: List.range' 2 99 := rfl
  rw [h]
  simp [walkFormat, hf]

theorem walkFormats_none (fetch : Nat → Nat → Option APage) (mkt sid sname : String)
    (hf : ∀ u pg, fetch u pg = none) :
    ∀ (idxs : List Nat) (products : List AProduct),
      walkFormats fetch mkt sid sname idxs products =
        (products, idxs.map fun u => AFetchEvent.pageFetch u 1) := by
  intro idxs
  induction idxs with
  | nil => intro ps; rfl
  | cons u rest ih =>
    intro ps
    simp [walkFormats, walkFormat_none fetch mkt sid sname hf, ih, mergeProducts, addNew]

/-! ### Acc-independent mirrors of the amazon_scraper walker: per-page
extracted-product lists in encounter order and the fetch log. The page
loop's control flow (response, invalid marker, selector hit, next button)
never consults the accumulator, so these are functions of the fetch oracle
alone; `walkFormat_eq`/`walkFormats_eq` prove the correspondence. -/

theorem processElements_eq (mkt sid sname : String) :
    ∀ (els : List BElement) (acc : List AProduct),
      processElements mkt sid sname els acc =
        (els.filterMap (processElement mkt sid sname)).foldl
          (SellerScan.insertNew AProduct.asin) acc := by
  intro els
  induction els with
  | nil => intro acc; rfl
  | cons e rest ih =>
    intro acc
    simp only [processElements, List.foldl_cons, List.filterMap_cons] at ih ⊢
    cases h : processElement mkt sid sname e with
    | none => simp only [h]; exact ih acc
    | some p => simp only [h, List.foldl_cons]; exact ih _

def aPageStream (fetch : Nat → Nat → Option APage) (marketplace sellerId sellerName : String)
    (u : Nat) : List Nat → List (List AProduct)
  | [] => []
  | pg :: rest =>
    match fetch u pg with
    | none => []
    | some page =>
      if page.invalidMarker then []
      else
        if (SellerScan.firstNonEmptyList page.selectorResults).isEmpty then []
        else
          match page.nextButton with
          | none => [(SellerScan.firstNonEmptyList page.selectorResults).filterMap
                       (processElement marketplace sellerId sellerName)]
          | some disabled =>
            if disabled then
              [(SellerScan.firstNonEmptyList page.selectorResults).filterMap
                 (processElement marketplace sellerId sellerName)]
            else
              (SellerScan.firstNonEmptyList page.selectorResults).filterMap
                  (processElement marketplace sellerId sellerName) ::
                aPageStream fetch marketplace sellerId sellerName u rest

def aPagesLog (fetch : Nat → Nat → Option APage) (u : Nat) : List Nat → List AFetchEvent
  | [] => []
  | pg :: rest =>
    match fetch u pg with
    | none => [.pageFetch u pg]
    | some page =>
      if page.invalidMarker then [.pageFetch u pg]
      else
        if (SellerScan.firstNonEmptyList page.selectorResults).isEmpty then [.pageFetch u pg]
        else
          match page.nextButton with
          | none => [.pageFetch u pg]
          | some disabled =>
            if disabled then [.pageFetch u pg]
            else .pageFetch u pg :: aPagesLog fetch u rest

theorem walkFormat_eq (fetch : Nat → Nat → Option APage) (mkt sid sname : String) (u : Nat) :
    ∀ (pages : List Nat) (acc : List AProduct),
      walkFormat fetch mkt sid sname u pages acc =
        ((aPageStream fetch mkt sid sname u pages).foldl (SellerScan.addNew AProduct.asin) acc,
         aPagesLog fetch u pages) := by
  intro pages
  induction pages with
  | nil => intro acc; rfl
  | cons pg rest ih =>
    intro acc
    simp only [walkFormat, aPageStream, aPagesLog]
    cases hf : fetch u pg with
    | none => simp
    | some page =>
      by_cases hinv : page.invalidMarker
      · simp [hinv]
      · by_cases hels : (SellerScan.firstNonEmptyList page.selectorResults).isEmpty
        · simp [hinv, hels]
        · cases hnb : page.nextButton with
          | none =>
            simp [hinv, hels, hnb, processElements_eq, SellerScan.addNew]
          | some disabled =>
            by_cases hd : disabled
            · simp [hinv, hels, hnb, hd, processElements_eq, SellerScan.addNew]
            · simp [hinv, hels, hnb, hd, ih, processElements_eq, SellerScan.addNew]

/-- One URL format's encounter stream: every record its element loop
processes, across the pages the format actually walks, in order. -/
def aFormatStream (fetch : Nat → Nat → Option APage) (mkt sid sname : String) (u : Nat) :
    List AProduct :=
  (aPageStream fetch mkt sid sname u pages100).flatten

def aStreamAll (fetch : Nat → Nat → Option APage) (mkt sid sname : String) :
    List Nat → List AProduct
  | [] => []
  | u :: rest => aFormatStream fetch mkt sid sname u ++ aStreamAll fetch mkt sid sname rest

def aLogAll (fetch : Nat → Nat → Option APage) : List Nat → List AFetchEvent
  | [] => []
  | u :: rest => aPagesLog fetch u pages100 ++ aLogAll fetch rest

/-- The format loop's accumulator is the global first-seen fold of the flat
encounter stream: per-format `page_products` deduplication followed by the
cross-format merge (lines 454-457) is the same as inserting each
encountered record first-seen-wins into `products` directly. -/
theorem walkFormats_eq (fetch : Nat → Nat → Option APage) (mkt sid sname : String) :
    ∀ (idxs : List Nat) (products : List AProduct),
      walkFormats fetch mkt sid sname idxs products =
        ((aStreamAll fetch mkt sid sname idxs).foldl
           (SellerScan.insertNew AProduct.asin) products,
         aLogAll fetch idxs) := by
  intro idxs
  induction idxs with
  | nil => intro ps; rfl
  | cons u rest ih =>
    intro ps
    simp only [walkFormats, walkFormat_eq, aStreamAll, aLogAll]
    rw [ih]
    simp only [mergeProducts, SellerScan.addNew]
    rw [SellerScan.foldl_addNew_eq_flatten, SellerScan.foldl_insertNew_foldl]
    simp only [List.foldl_nil, aFormatStream, List.foldl_append]

/-- The complete encounter stream of one amazon_scraper scrape: formats in
`urls_to_try` order, pages within each format, elements within each page. -/
def aScanFlatStream (fetch : Nat → Nat → Option APage) (mkt sid sname : String) :
    List AProduct :=
  aStreamAll fetch mkt sid sname (List.range urlFormatCount)

theorem aScanFresh_saved_products (fetch : Nat → Nat → Option APage)
    (nameResult : Option String) (sid mkt : String) (now : Nat) :
    ∀ cd, (aScanFresh fetch nameResult sid mkt now).saved = some cd →
      cd.products = some (aScanFresh fetch nameResult sid mkt now).products := by
  intro cd hcd
  simp only [aScanFresh, walkFormats_eq] at hcd
  split at hcd
  · exact absurd hcd (by simp)
  · obtain rfl := Option.some.inj hcd
    simp only [aScanFresh, walkFormats_eq]

end AmazonMod

/-! ## The title fallback chain -/

theorem firstNonEmptyTrim_spec : ∀ (cands : List (Option String)) (t : String),
    firstNonEmptyTrim cands = some t →
      t ≠ "" ∧ ∃ pre s post, cands = pre ++ some s :: post ∧ pyStrip s = t ∧
        ∀ c ∈ pre, c = none ∨ ∃ u, c = some u ∧ pyStrip u = "" := by
  intro cands
  induction cands with
  | nil => intro t ht; simp [firstNonEmptyTrim] at ht
  | cons c rest ih =>
    intro t ht
    cases c with
    | none =>
      obtain ⟨h1, pre, s, post, hc, hs, hpre⟩ := ih t (by simpa [firstNonEmptyTrim] using ht)
      refine ⟨h1, none :: pre, s, post, by simp [hc], hs, ?_⟩
      intro c hc2
      rcases List.mem_cons.1 hc2 with h | h
      · exact .inl h
      · exact hpre c h
    | some s0 =>
      simp only [firstNonEmptyTrim] at ht
      by_cases h0 : pyStrip s0 = ""
      · rw [if_pos h0] at ht
        obtain ⟨h1, pre, s, post, hc, hs, hpre⟩ := ih t ht
        refine ⟨h1, some s0 :: pre, s, post, by simp [hc], hs, ?_⟩
        intro c hc2
        rcases List.mem_cons.1 hc2 with h | h
        · exact .inr ⟨s0, h, h0⟩
        · exact hpre c h
      · rw [if_neg h0] at ht
        obtain rfl := Option.some.inj ht
        exact ⟨h0, [], s0, rest, rfl, rfl, by simp⟩

/-! ## Claims -/

/-- C2: for every seller_id, marketplace and force_refresh flag, the
top-level `get_seller_products` wrappers never let a scraping failure
escape: a scan that raised (any message) yields `[]`, and a scan that
returned yields exactly its product list — in particular an empty scan
yields the empty sequence. -/
theorem C2_top_level_never_raises :
    (∀ msg : String, Enhanced.getSellerProducts (Except.error msg) = [])
    ∧ (∀ (fetch : Nat → Nat → Option Enhanced.SearchPage) (nameResult : Option String)
        (file : Enhanced.ECacheFile) (now : Nat) (sid mkt : String) (fr : Bool),
        Enhanced.getSellerProducts (Except.ok
          ((Enhanced.scanSellerInventory fetch nameResult file now sid mkt fr).products,
           (Enhanced.scanSellerInventory fetch nameResult file now sid mkt fr).sellerName)) =
          (Enhanced.scanSellerInventory fetch nameResult file now sid mkt fr).products)
    ∧ (∀ msg : String, AmazonMod.getSellerProductsTop (Except.error msg) = [])
    ∧ (∀ ps : List AmazonMod.AProduct, AmazonMod.getSellerProductsTop (Except.ok ps) = ps) :=
  ⟨fun _ => rfl, fun _ _ _ _ _ _ _ => rfl, fun _ => rfl, fun _ => rfl⟩

/-- C3: for a seller whose cache entry exists, parses, and is inside the
freshness window, `get_seller_products`/`scan_seller_inventory` with
`force_refresh = false` returns exactly the cached product sequence and
performs no fetch at all (the fetch log is empty), in both modules. -/
theorem C3_fresh_cache_served_without_fetch
    (fetch : Nat → Nat → Option Enhanced.SearchPage) (nameResult : Option String)
    (cd : Enhanced.ECacheData) (now : Nat) (sid mkt : String) (ps : List Enhanced.EProduct)
    (hfresh : ¬ Enhanced.maxAgeSecs 12 < now - cd.timestamp.getD Enhanced.defaultStamp)
    (hps : cd.products = some ps)
    (afetch : Nat → Nat → Option AmazonMod.APage) (anameResult : Option String)
    (acd : AmazonMod.ACacheData) (anow : Nat) (aps : List AmazonMod.AProduct)
    (hafresh : anow - acd.timestamp.getD 0 < 86400)
    (haps : acd.products = some aps) :
    ((Enhanced.scanSellerInventory fetch nameResult (.parsed cd) now sid mkt false).products = ps
      ∧ (Enhanced.scanSellerInventory fetch nameResult (.parsed cd) now sid mkt false).log = [])
    ∧ ((AmazonMod.aGetSellerProducts afetch anameResult (.parsed acd) anow sid mkt false).products = aps
      ∧ (AmazonMod.aGetSellerProducts afetch anameResult (.parsed acd) anow sid mkt false).log = []) := by
  constructor
  · constructor
    · simp [Enhanced.scanSellerInventory, Enhanced.getFromCache, hfresh, hps]
    · simp [Enhanced.scanSellerInventory, Enhanced.getFromCache, hfresh, hps]
  · have ht : AmazonMod.truthy acd = true := by simp [AmazonMod.truthy, haps]
    constructor
    · simp [AmazonMod.aGetSellerProducts, AmazonMod.aGetFromCache, hafresh, ht, haps]
    · simp [AmazonMod.aGetSellerProducts, AmazonMod.aGetFromCache, hafresh, ht]

def c3Products : List Enhanced.EProduct :=
  [ ⟨"A000000001", "P one", none, "", "S2", "UK", "enhanced_amazon"⟩
  , ⟨"A000000002", "P two", none, "", "S2", "UK", "enhanced_amazon"⟩
  , ⟨"A000000003", "P three", none, "", "S2", "UK", "enhanced_amazon"⟩
  , ⟨"A000000004", "P four", none, "", "S2", "UK", "enhanced_amazon"⟩
  , ⟨"A000000005", "P five", none, "", "S2", "UK", "enhanced_amazon"⟩ ]

def c3CacheData : Enhanced.ECacheData :=
  { timestamp := some 1000, sellerId := some "S2", sellerName := some "Seller Two",
    products := some c3Products, marketplace := some "co.uk" }

def c3AProducts : List AmazonMod.AProduct :=
  [ ⟨"B000000001", "Q one", "", "Amazon CO.UK", "S2", "Seller Two", none⟩
  , ⟨"B000000002", "Q two", "", "Amazon CO.UK", "S2", "Seller Two", none⟩
  , ⟨"B000000003", "Q three", "", "Amazon CO.UK", "S2", "Seller Two", none⟩
  , ⟨"B000000004", "Q four", "", "Amazon CO.UK", "S2", "Seller Two", none⟩
  , ⟨"B000000005", "Q five", "", "Amazon CO.UK", "S2", "Seller Two", none⟩ ]

def c3ACacheData : AmazonMod.ACacheData :=
  { timestamp := some 1000, products := some c3AProducts, hasOther := true }

/-- C3 witness: a pre-populated fresh cache of 5 products is returned as-is
with an empty fetch log, in both modules. -/
theorem C3_witness :
    ((Enhanced.scanSellerInventory (fun _ _ => none) none (.parsed c3CacheData) 1000
        "S2" "co.uk" false).products = c3Products
      ∧ (Enhanced.scanSellerInventory (fun _ _ => none) none (.parsed c3CacheData) 1000
          "S2" "co.uk" false).log = [])
    ∧ ((AmazonMod.aGetSellerProducts (fun _ _ => none) none (.parsed c3ACacheData) 1000
          "S2" "co.uk" false).products = c3AProducts
      ∧ (AmazonMod.aGetSellerProducts (fun _ _ => none) none (.parsed c3ACacheData) 1000
          "S2" "co.uk" false).log = []) :=
  C3_fresh_cache_served_without_fetch (fun _ _ => none) none c3CacheData 1000 "S2" "co.uk"
    c3Products (by decide) (by decide) (fun _ _ => none) none c3ACacheData 1000 c3AProducts
    (by decide) (by decide)

/-- C5 as stated is false for amazon_scraper's `_get_from_cache`
(lines 136-152): at time 86400 an entry stamped 0 exists and parses, and
its age (86400 seconds) equals — does not exceed — the 24-hour window,
yet the lookup returns `none`: a miss outside the claim's three
situations. -/
theorem C5_counterexample :
    AmazonMod.aGetFromCache (AmazonMod.ACacheFile.parsed ⟨some 0, none, true⟩) 86400 = none
    ∧ ¬ 86400 - ((⟨some 0, none, true⟩ : AmazonMod.ACacheData).timestamp.getD 0) > 86400 := by
  decide

/-- C5 amended: the enhanced `get_from_cache` returns `none` in exactly
three situations — no entry, an entry whose read/parse raises (swallowed
into a miss by the total `Option`-valued lookup, never propagated), or an
entry whose age strictly exceeds the freshness window — and any served
entry is the stored data unchanged; amazon_scraper's `_get_from_cache`
misses on the same no-entry and parse-failure situations but serves only
while the age is strictly below 24 hours, so its third miss situation is
age greater than or equal to the window. -/
theorem C5_cache_get_none_iff (file : Enhanced.ECacheFile) (now maxAgeHours : Nat)
    (afile : AmazonMod.ACacheFile) (anow : Nat) :
    (Enhanced.getFromCache file now maxAgeHours = none ↔
      file = .absent ∨ file = .unparseable ∨
        ∃ cd, file = .parsed cd ∧
          Enhanced.maxAgeSecs maxAgeHours < now - cd.timestamp.getD Enhanced.defaultStamp)
    ∧ (∀ cd, Enhanced.getFromCache file now maxAgeHours = some cd → file = .parsed cd)
    ∧ (AmazonMod.aGetFromCache afile anow = none ↔
        afile = .absent ∨ afile = .unparseable ∨
          ∃ cd, afile = .parsed cd ∧ 86400 ≤ anow - cd.timestamp.getD 0)
    ∧ (∀ cd, AmazonMod.aGetFromCache afile anow = some cd → afile = .parsed cd) := by
  refine ⟨?_, ?_, ?_, ?_⟩
  · cases file with
    | absent => simp [Enhanced.getFromCache]
    | unparseable => simp [Enhanced.getFromCache]
    | parsed cd =>
      by_cases h : Enhanced.maxAgeSecs maxAgeHours < now - cd.timestamp.getD Enhanced.defaultStamp
      · simp [Enhanced.getFromCache, h]
      · simp [Enhanced.getFromCache, h]
  · intro cd2 h2
    cases file with
    | absent => cases h2
    | unparseable => cases h2
    | parsed cd =>
      simp only [Enhanced.getFromCache] at h2
      split at h2
      · cases h2
      · cases h2
        rfl
  · cases afile with
    | absent => simp [AmazonMod.aGetFromCache]
    | unparseable => simp [AmazonMod.aGetFromCache]
    | parsed cd =>
      by_cases h : anow - cd.timestamp.getD 0 < 86400
      · simp [AmazonMod.aGetFromCache, h, Nat.not_le.mpr h]
      · simp [AmazonMod.aGetFromCache, h, Nat.not_lt.mp h]
  · intro cd2 h2
    cases afile with
    | absent => cases h2
    | unparseable => cases h2
    | parsed cd =>
      simp only [AmazonMod.aGetFromCache] at h2
      split at h2
      · cases h2
        rfl
      · cases h2

/-- C5 witness: a missing cache file is a miss in both modules. -/
theorem C5_witness :
    Enhanced.getFromCache .absent 0 12 = none
    ∧ AmazonMod.aGetFromCache .absent 0 = none :=
  ⟨(C5_cache_get_none_iff .absent 0 12 .absent 0).1.mpr (Or.inl rfl),
   (C5_cache_get_none_iff .absent 0 12 .absent 0).2.2.1.mpr (Or.inl rfl)⟩

/-- C10: in amazon_scraper, a cache entry that parses and is fresh but has
no `products` field short-circuits `get_seller_products` (force_refresh
false) into an empty list with no fetch at all — it suppresses rescanning
instead of counting as a miss. -/
theorem C10_fresh_entry_without_products
    (fetch : Nat → Nat → Option AmazonMod.APage) (nameResult : Option String)
    (cd : AmazonMod.ACacheData) (now : Nat) (sid mkt : String)
    (hfresh : now - cd.timestamp.getD 0 < 86400)
    (hnp : cd.products = none)
    (hts : cd.timestamp.isSome = true) :
    (AmazonMod.aGetSellerProducts fetch nameResult (.parsed cd) now sid mkt false).products = []
    ∧ (AmazonMod.aGetSellerProducts fetch nameResult (.parsed cd) now sid mkt false).log = [] := by
  have ht : AmazonMod.truthy cd = true := by simp [AmazonMod.truthy, hts]
  constructor
  · simp [AmazonMod.aGetSellerProducts, AmazonMod.aGetFromCache, hfresh, ht, hnp]
  · simp [AmazonMod.aGetSellerProducts, AmazonMod.aGetFromCache, hfresh, ht]

/-- C10 witness: the fresh products-less entry `{timestamp: 0}` at time 0
yields `[]` without any fetch. -/
theorem C10_witness :
    (AmazonMod.aGetSellerProducts (fun _ _ => none) none
        (.parsed ⟨some 0, none, false⟩) 0 "S" "co.uk" false).products = []
    ∧ (AmazonMod.aGetSellerProducts (fun _ _ => none) none
        (.parsed ⟨some 0, none, false⟩) 0 "S" "co.uk" false).log = [] :=
  C10_fresh_entry_without_products (fun _ _ => none) none ⟨some 0, none, false⟩ 0 "S" "co.uk"
    (by decide) (by decide) (by decide)

/-- C4: with a fetcher stubbed to always fail, a forced scan terminates
(the walkers are total functions) after at most variant_count × page_ceiling
fetch attempts — the fetch log stays within 15 × 7 in the enhanced module
and 14 × 100 in amazon_scraper — and returns an empty product set instead
of raising; per-URL failures only shrink the result. -/
theorem C4_failing_fetcher_bounded_empty
    (fetch : Nat → Nat → Option Enhanced.SearchPage) (nameResult : Option String)
    (file : Enhanced.ECacheFile) (now : Nat) (sid mkt : String)
    (hf : ∀ i pg, fetch i pg = none)
    (afetch : Nat → Nat → Option AmazonMod.APage) (anameResult : Option String)
    (afile : AmazonMod.ACacheFile) (anow : Nat)
    (haf : ∀ u pg, afetch u pg = none) :
    ((Enhanced.scanSellerInventory fetch nameResult file now sid mkt true).products = []
      ∧ (Enhanced.scanSellerInventory fetch nameResult file now sid mkt true).log.length ≤
          Enhanced.SELLER_URL_PATTERNS.length * Enhanced.initialPages.length)
    ∧ ((AmazonMod.aGetSellerProducts afetch anameResult afile anow sid mkt true).products = []
      ∧ (AmazonMod.aGetSellerProducts afetch anameResult afile anow sid mkt true).log.length ≤
          AmazonMod.urlFormatCount * AmazonMod.pages100.length) := by
  constructor
  · have h1 : Enhanced.scanSellerInventory fetch nameResult file now sid mkt true =
        Enhanced.scanFresh fetch nameResult sid mkt now := rfl
    rw [h1]
    have h2 : Enhanced.scanPatterns fetch sid Enhanced.patternIdxs [] =
        ([], Enhanced.logAll fetch sid Enhanced.patternIdxs) := by
      rw [Enhanced.scanPatterns_eq, Enhanced.streamAll_none fetch sid hf]
      rfl
    constructor
    · simp [Enhanced.scanFresh, h2]
    · simp only [Enhanced.scanFresh, h2, Enhanced.logAll_none fetch sid hf]
      simp [Enhanced.patternIdxs]
      decide
  · have h1 : AmazonMod.aGetSellerProducts afetch anameResult afile anow sid mkt true =
        AmazonMod.aScanFresh afetch anameResult sid mkt anow := rfl
    rw [h1]
    have h2 := AmazonMod.walkFormats_none afetch mkt sid
      (Enhanced.resolveName anameResult) haf (List.range AmazonMod.urlFormatCount) []
    constructor
    · simp [AmazonMod.aScanFresh, h2]
    · simp only [AmazonMod.aScanFresh, h2]
      simp [AmazonMod.urlFormatCount]
      decide

/-- C4 witness: the concrete always-failing fetcher at concrete arguments. -/
theorem C4_witness :
    ((Enhanced.scanSellerInventory (fun _ _ => none) none .absent 0 "S" "co.uk" true).products = []
      ∧ (Enhanced.scanSellerInventory (fun _ _ => none) none .absent 0 "S" "co.uk" true).log.length ≤
          Enhanced.SELLER_URL_PATTERNS.length * Enhanced.initialPages.length)
    ∧ ((AmazonMod.aGetSellerProducts (fun _ _ => none) none .absent 0 "S" "co.uk" true).products = []
      ∧ (AmazonMod.aGetSellerProducts (fun _ _ => none) none .absent 0 "S" "co.uk" true).log.length ≤
          AmazonMod.urlFormatCount * AmazonMod.pages100.length) :=
  C4_failing_fetcher_bounded_empty (fun _ _ => none) none .absent 0 "S" "co.uk"
    (fun _ _ => rfl) (fun _ _ => none) none .absent 0 (fun _ _ => rfl)

/-- C6 as stated is false: the enhanced extractor accepts any non-empty
item identifier. At a concrete page whose single element carries
`data-asin="ABC"`, extraction emits a record whose id is not 10 characters
long (hence not 10 alphanumeric characters). -/
theorem C6_counterexample :
    ∃ p ∈ Enhanced.extractProductsFromSearchPage
        ⟨[[⟨none, some "ABC", none, some "Widget", none⟩]]⟩ "S",
      p.asin.length ≠ 10 := by decide

/-- C6 amended: only amazon_scraper validates identifiers, and it checks
exactly length 10 (not alphanumeric content): every record it emits has an
id of exactly 10 characters; the enhanced extractor merely rejects
missing/empty identifiers, so its records only have non-empty ids. -/
theorem C6_id_validation :
    (∀ (mkt sid sname : String) (e : AmazonMod.BElement) (p : AmazonMod.AProduct),
        AmazonMod.processElement mkt sid sname e = some p → p.asin.length = 10)
    ∧ (∀ (sid : String) (e : Enhanced.SearchElement) (p : Enhanced.EProduct),
        Enhanced.extractProduct sid e = some p → p.asin ≠ "") := by
  constructor
  · intro mkt sid sname e p h
    simp only [AmazonMod.processElement] at h
    split at h
    · exact absurd h (by simp)
    · rename_i hcond
      push_neg at hcond
      split at h
      · exact absurd h (by simp)
      · obtain rfl := Option.some.inj h
        exact hcond.2
  · intro sid e p h
    simp only [Enhanced.extractProduct] at h
    split at h
    · exact absurd h (by simp)
    · split at h
      · exact absurd h (by simp)
      · rename_i a heq
        split at h
        · exact absurd h (by simp)
        · rename_i hne
          obtain rfl := Option.some.inj h
          exact hne

def c6wElem : AmazonMod.BElement := ⟨some "B00EXAMPLE", [some "T"], []⟩

def c6wProd : AmazonMod.AProduct :=
  ⟨"B00EXAMPLE", "T", "https://www.amazon.co.uk/dp/B00EXAMPLE", "Amazon CO.UK", "S", "N", none⟩

/-- C6 witness: a concrete element with a 10-character ASIN passes
amazon_scraper's check and the emitted id has length 10. -/
theorem C6_witness : c6wProd.asin.length = 10 :=
  C6_id_validation.1 "co.uk" "S" "N" c6wElem c6wProd (by decide)

/-- C7 as stated is false: the enhanced extractor does not reject an
element without a title — at a concrete page whose single element has an
ASIN but no title match, extraction emits a record with the placeholder
title "Unknown Title". -/
theorem C7_counterexample :
    ∃ p ∈ Enhanced.extractProductsFromSearchPage
        ⟨[[⟨none, some "B00EXAMPLE", none, none, none⟩]]⟩ "S",
      p.title = "Unknown Title" := by decide

/-- C7 amended: amazon_scraper resolves the title through its ordered
sub-selectors, keeping the first non-empty stripped match and rejecting
the element when every candidate is absent or strips to empty — so none of
its records has an empty title; the enhanced extractor instead substitutes
the placeholder "Unknown Title" when no title element matches. -/
theorem C7_title_fallback :
    (∀ (mkt sid sname : String) (e : AmazonMod.BElement) (p : AmazonMod.AProduct),
        AmazonMod.processElement mkt sid sname e = some p →
          p.title ≠ "" ∧ ∃ pre s post, e.titleCands = pre ++ some s :: post ∧
            pyStrip s = p.title ∧
            ∀ c ∈ pre, c = none ∨ ∃ u, c = some u ∧ pyStrip u = "")
    ∧ (∀ (sid : String) (e : Enhanced.SearchElement) (p : Enhanced.EProduct),
        Enhanced.extractProduct sid e = some p → e.titleText = none →
          p.title = "Unknown Title") := by
  constructor
  · intro mkt sid sname e p h
    simp only [AmazonMod.processElement] at h
    split at h
    · exact absurd h (by simp)
    · split at h
      · exact absurd h (by simp)
      · rename_i title hteq
        obtain rfl := Option.some.inj h
        exact firstNonEmptyTrim_spec e.titleCands title hteq
  · intro sid e p h hnone
    simp only [Enhanced.extractProduct] at h
    split at h
    · exact absurd h (by simp)
    · split at h
      · exact absurd h (by simp)
      · split at h
        · exact absurd h (by simp)
        · obtain rfl := Option.some.inj h
          simp [hnone]

def c7wElem : AmazonMod.BElement :=
  ⟨some "B00EXAMPLE", [none, some "   ", some " Good title ", some "Later"], []⟩

def c7wProd : AmazonMod.AProduct :=
  ⟨"B00EXAMPLE", "Good title", "https://www.amazon.co.uk/dp/B00EXAMPLE", "Amazon CO.UK",
   "S", "N", none⟩

/-- C7 witness: with candidates [absent, blank, " Good title ", "Later"],
the third sub-selector wins and the emitted title is its non-empty strip. -/
theorem C7_witness :
    c7wProd.title ≠ "" ∧ ∃ pre s post, c7wElem.titleCands = pre ++ some s :: post ∧
      pyStrip s = c7wProd.title ∧
      ∀ c ∈ pre, c = none ∨ ∃ u, c = some u ∧ pyStrip u = "" :=
  C7_title_fallback.1 "co.uk" "S" "N" c7wElem c7wProd (by decide)

/-- C8 as stated is false: amazon_scraper's URL-variant list is not a
function of seller and marketplace alone — built at times 0 and 1 for the
same seller it differs (the ninth entry embeds `int(time.time())` as a
`qid` parameter). -/
theorem C8_counterexample :
    AmazonMod.urlsToTry "S" "co.uk" 0 ≠ AmazonMod.urlsToTry "S" "co.uk" 1 := by decide

/-- C8 amended: the enhanced module's `SELLER_URL_PATTERNS` are pure
templates of (marketplace, seller_id, page) with no time or random input;
in amazon_scraper the construction time influences `urls_to_try` only at
index 8, the qid-stamped variant: the list built at time `t` is the list
built at any other time with index 8 overwritten by `qidUrl` at `t`, so all
other entries are deterministic in (seller_id, marketplace). -/
theorem C8_time_dependence_only_qid (sid mkt : String) (t t2 : Nat) :
    AmazonMod.urlsToTry sid mkt t =
      (AmazonMod.urlsToTry sid mkt t2).set 8 (AmazonMod.qidUrl sid mkt t) := rfl

theorem scanFresh_saved_products (fetch : Nat → Nat → Option Enhanced.SearchPage)
    (nameResult : Option String) (sid mkt : String) (now : Nat) :
    ∀ cd, (Enhanced.scanFresh fetch nameResult sid mkt now).saved = some cd →
      cd.products = some (Enhanced.scanFresh fetch nameResult sid mkt now).products := by
  intro cd hcd
  simp only [Enhanced.scanFresh, Enhanced.scanPatterns_eq] at hcd
  obtain rfl := Option.some.inj hcd
  simp only [Enhanced.scanFresh, Enhanced.scanPatterns_eq]

/-- C1: for every scan (a run that actually walks, here forced with
`force_refresh = true`), in both modules the returned product set has no
two records sharing an id, the cached snapshot carries exactly the
returned set, the first record encountered with a given id across all
pages and variants/URL formats is kept verbatim (title and price intact,
no field merging), and every returned record is one of the encountered
records. -/
theorem C1_scan_dedup_first_seen
    (fetch : Nat → Nat → Option Enhanced.SearchPage) (nameResult : Option String)
    (file : Enhanced.ECacheFile) (now : Nat) (sid mkt : String)
    (afetch : Nat → Nat → Option AmazonMod.APage) (anameResult : Option String)
    (afile : AmazonMod.ACacheFile) (anow : Nat) :
    ((Enhanced.scanSellerInventory fetch nameResult file now sid mkt true).products.Pairwise
        fun a b => a.asin ≠ b.asin)
    ∧ (∀ cd, (Enhanced.scanSellerInventory fetch nameResult file now sid mkt true).saved = some cd →
        cd.products = some (Enhanced.scanSellerInventory fetch nameResult file now sid mkt true).products)
    ∧ (∀ l₁ p l₂, Enhanced.scanFlatStream fetch sid = l₁ ++ p :: l₂ →
        (∀ q ∈ l₁, q.asin ≠ p.asin) →
        p ∈ (Enhanced.scanSellerInventory fetch nameResult file now sid mkt true).products)
    ∧ (∀ p ∈ (Enhanced.scanSellerInventory fetch nameResult file now sid mkt true).products,
        p ∈ Enhanced.scanFlatStream fetch sid)
    ∧ ((AmazonMod.aGetSellerProducts afetch anameResult afile anow sid mkt true).products.Pairwise
        fun a b => a.asin ≠ b.asin)
    ∧ (∀ cd, (AmazonMod.aGetSellerProducts afetch anameResult afile anow sid mkt true).saved = some cd →
        cd.products =
          some (AmazonMod.aGetSellerProducts afetch anameResult afile anow sid mkt true).products)
    ∧ (∀ l₁ p l₂,
        AmazonMod.aScanFlatStream afetch mkt sid (Enhanced.resolveName anameResult) =
            l₁ ++ p :: l₂ →
        (∀ q ∈ l₁, q.asin ≠ p.asin) →
        p ∈ (AmazonMod.aGetSellerProducts afetch anameResult afile anow sid mkt true).products)
    ∧ (∀ p ∈ (AmazonMod.aGetSellerProducts afetch anameResult afile anow sid mkt true).products,
        p ∈ AmazonMod.aScanFlatStream afetch mkt sid (Enhanced.resolveName anameResult)) := by
  have h1 : Enhanced.scanSellerInventory fetch nameResult file now sid mkt true =
      Enhanced.scanFresh fetch nameResult sid mkt now := rfl
  have hp : (Enhanced.scanSellerInventory fetch nameResult file now sid mkt true).products =
      (Enhanced.scanFlatStream fetch sid).foldl (insertNew Enhanced.EProduct.asin) [] := by
    rw [h1]
    have h2 : (Enhanced.scanFresh fetch nameResult sid mkt now).products =
        (Enhanced.streamAll fetch sid Enhanced.patternIdxs).foldl
          (addNew Enhanced.EProduct.asin) [] := by
      simp only [Enhanced.scanFresh, Enhanced.scanPatterns_eq]
    rw [h2, foldl_addNew_eq_flatten]
    rfl
  have ha1 : AmazonMod.aGetSellerProducts afetch anameResult afile anow sid mkt true =
      AmazonMod.aScanFresh afetch anameResult sid mkt anow := rfl
  have hap : (AmazonMod.aGetSellerProducts afetch anameResult afile anow sid mkt true).products =
      (AmazonMod.aScanFlatStream afetch mkt sid (Enhanced.resolveName anameResult)).foldl
        (insertNew AmazonMod.AProduct.asin) [] := by
    rw [ha1]
    simp only [AmazonMod.aScanFresh, AmazonMod.walkFormats_eq]
    rfl
  refine ⟨?_, ?_, ?_, ?_, ?_, ?_, ?_, ?_⟩
  · rw [hp]
    exact pairwise_foldl_insertNew _ _ [] List.Pairwise.nil
  · rw [h1]
    exact scanFresh_saved_products fetch nameResult sid mkt now
  · intro l₁ p l₂ hdec hfr
    rw [hp, hdec]
    exact firstSeen_mem_foldl_insertNew Enhanced.EProduct.asin p l₂ l₁ [] (by simp) hfr
  · intro p hmem
    rw [hp] at hmem
    rcases mem_of_mem_foldl_insertNew Enhanced.EProduct.asin
      (Enhanced.scanFlatStream fetch sid) [] p hmem with h | h
    · simp at h
    · exact h
  · rw [hap]
    exact pairwise_foldl_insertNew _ _ [] List.Pairwise.nil
  · rw [ha1]
    exact AmazonMod.aScanFresh_saved_products afetch anameResult sid mkt anow
  · intro l₁ p l₂ hdec hfr
    rw [hap, hdec]
    exact firstSeen_mem_foldl_insertNew AmazonMod.AProduct.asin p l₂ l₁ [] (by simp) hfr
  · intro p hmem
    rw [hap] at hmem
    rcases mem_of_mem_foldl_insertNew AmazonMod.AProduct.asin
      (AmazonMod.aScanFlatStream afetch mkt sid (Enhanced.resolveName anameResult)) [] p hmem
      with h | h
    · simp at h
    · exact h

def c1Fetch : Nat → Nat → Option Enhanced.SearchPage := fun i pg =>
  if i = 0 && pg = 1 then
    some ⟨[[⟨none, some "A000000001", none, some "Alpha", none⟩,
            ⟨none, some "B000000002", none, some "Beta", none⟩]]⟩
  else if i = 1 && pg = 1 then
    some ⟨[[⟨none, some "A000000001", none, some "Alpha renamed", some "9.99"⟩]]⟩
  else none

def c1ProdA : Enhanced.EProduct :=
  ⟨"A000000001", "Alpha", none, "https://www.amazon.co.uk/dp/A000000001", "S", "UK",
   "enhanced_amazon"⟩

def c1ProdB : Enhanced.EProduct :=
  ⟨"B000000002", "Beta", none, "https://www.amazon.co.uk/dp/B000000002", "S", "UK",
   "enhanced_amazon"⟩

def c1ProdA2 : Enhanced.EProduct :=
  ⟨"A000000001", "Alpha renamed", some "9.99", "https://www.amazon.co.uk/dp/A000000001",
   "S", "UK", "enhanced_amazon"⟩

def c1AFetch : Nat → Nat → Option AmazonMod.APage := fun u pg =>
  if u = 0 && pg = 1 then
    some ⟨false, [[⟨some "A000000001", [some "Alpha"], []⟩,
                   ⟨some "B000000002", [some "Beta"], []⟩]], none⟩
  else if u = 1 && pg = 1 then
    some ⟨false, [[⟨some "A000000001", [some "Alpha renamed"], [some "9.99"]⟩]], none⟩
  else none

def c1AProdA : AmazonMod.AProduct :=
  ⟨"A000000001", "Alpha", "https://www.amazon.co.uk/dp/A000000001", "Amazon CO.UK", "S",
   "Unknown Seller", none⟩

def c1AProdB : AmazonMod.AProduct :=
  ⟨"B000000002", "Beta", "https://www.amazon.co.uk/dp/B000000002", "Amazon CO.UK", "S",
   "Unknown Seller", none⟩

def c1AProdA2 : AmazonMod.AProduct :=
  ⟨"A000000001", "Alpha renamed", "https://www.amazon.co.uk/dp/A000000001", "Amazon CO.UK",
   "S", "Unknown Seller", some "9.99"⟩

set_option maxRecDepth 4000 in
/-- C1 witness: in each module, a scan meeting the same id on two
variants/URL formats (the second time with a different title and price)
returns a duplicate-free set that still contains the first-seen record
unchanged. -/
theorem C1_witness :
    ((Enhanced.scanSellerInventory c1Fetch none .absent 0 "S" "co.uk" true).products.Pairwise
        fun a b => a.asin ≠ b.asin)
    ∧ c1ProdA ∈ (Enhanced.scanSellerInventory c1Fetch none .absent 0 "S" "co.uk" true).products
    ∧ ((AmazonMod.aGetSellerProducts c1AFetch none .absent 0 "S" "co.uk" true).products.Pairwise
        fun a b => a.asin ≠ b.asin)
    ∧ c1AProdA ∈ (AmazonMod.aGetSellerProducts c1AFetch none .absent 0 "S" "co.uk" true).products := by
  have h := C1_scan_dedup_first_seen c1Fetch none .absent 0 "S" "co.uk" c1AFetch none .absent 0
  refine ⟨h.1, ?_, h.2.2.2.2.1, ?_⟩
  · exact h.2.2.1 [] c1ProdA [c1ProdB, c1ProdA2] (by decide) (by simp)
  · exact h.2.2.2.2.2.2.1 [] c1AProdA [c1AProdB, c1AProdA2] (by decide) (by simp)

/-- C9: the walker extends a variant's page ceiling (a page-8 fetch for
that variant occurs, opening pages 8-15) if and only if the variant's
`pattern_products_count` after its initial pages — the summed sizes of the
pages' extracted product lists — reaches the productivity threshold 100. -/
theorem C9_extension_iff_page_count (fetch : Nat → Nat → Option Enhanced.SearchPage)
    (sid : String) (i : Nat) (hi : i ∈ Enhanced.patternIdxs) :
    Enhanced.FetchEvent.pageFetch i 8 ∈
        (Enhanced.scanPatterns fetch sid Enhanced.patternIdxs []).2 ↔
      100 ≤ Enhanced.pagesCnt fetch sid i Enhanced.initialPages := by
  have hlog : (Enhanced.scanPatterns fetch sid Enhanced.patternIdxs []).2 =
      Enhanced.logAll fetch sid Enhanced.patternIdxs := by
    rw [Enhanced.scanPatterns_eq]
  rw [hlog, Enhanced.mem_logAll]
  constructor
  · rintro ⟨j, hj, hm⟩
    obtain ⟨pg, hpg⟩ := Enhanced.patternLog_mem fetch sid j _ hm
    obtain ⟨rfl, -⟩ := Enhanced.FetchEvent.pageFetch.inj hpg
    exact (Enhanced.pageFetch8_mem_patternLog fetch sid i).1 hm
  · intro h100
    exact ⟨i, hi, (Enhanced.pageFetch8_mem_patternLog fetch sid i).2 h100⟩

def c9Elem : Enhanced.SearchElement := ⟨none, some "X000000001", none, some "T", none⟩

def c9Fetch : Nat → Nat → Option Enhanced.SearchPage := fun i pg =>
  if i = 0 && pg = 1 then some ⟨[[c9Elem]]⟩
  else if i = 1 && pg = 1 then some ⟨[List.replicate 100 c9Elem]⟩
  else none

set_option maxRecDepth 4000 in
/-- C9 as stated is false: variant 2 of this concrete scan yields one page
of 100 records that are all duplicates of a product variant 1 already
discovered, so its newly-discovered total is 0 (the scan of variants
[0, 1] ends with exactly as many products as the scan of [0] alone) — yet
the walker still extends the variant's ceiling and fetches its page 8. -/
theorem C9_counterexample :
    Enhanced.FetchEvent.pageFetch 1 8 ∈
        (Enhanced.scanPatterns c9Fetch "S" Enhanced.patternIdxs []).2
    ∧ (Enhanced.scanPatterns c9Fetch "S" [0, 1] []).1.length =
        (Enhanced.scanPatterns c9Fetch "S" [0] []).1.length := by
  constructor
  · decide
  · decide

/-- C9 witness: variant 0 of an all-failing fetcher extracts nothing, and
indeed neither reaches the threshold nor gets extended. -/
theorem C9_witness :
    Enhanced.FetchEvent.pageFetch 0 8 ∈
        (Enhanced.scanPatterns (fun _ _ => none) "S" Enhanced.patternIdxs []).2 ↔
      100 ≤ Enhanced.pagesCnt (fun _ _ => none) "S" 0 Enhanced.initialPages :=
  C9_extension_iff_page_count (fun _ _ => none) "S" 0 (by decide)

end SellerScan
